import Mathlib

/-!
Shallow embedding of the loan amortization engine of `src/hk.py` (class `Loan`):
construction (`__init__` becomes `mkLoan`), the level-payment calculator
(`_calculate_equal_payment` becomes `calcEqualPayment`), the schedule generator
(`generate_schedule` becomes `Loan.generate_schedule`) and the baseline
interest calculator (`_calculate_original_interest` becomes
`Loan.calculate_original_interest`), together with the summary quantities
(total interest of a schedule, interest saved).

Conventions of the embedding:
* Python floats are modelled as rationals (exact arithmetic).
* Python `round(x, 2)` is modelled by `round2`: round `100*x` to the nearest
  integer and divide by 100.  On exact half-cent ties Mathlib's `round` rounds
  up while Python rounds half to even; no statement below depends on a tie.
* Python runtime failures that the modelled fragment can actually raise
  (`ZeroDivisionError` from `/` and `**`, `TypeError` from `None + float`) are
  modelled with `Except PyError`.
* The prepayment dict is modelled as a total function `ℤ → ℚ`: `d.get(p, 0)`
  is function application, an absent key is the value 0.  `None` as the whole
  dict argument and `{}` are both the constant-zero function.
* `full_prepayment_at = None` is `Option.none`; the Python truthiness test
  `if self.full_prepayment_at and period == self.full_prepayment_at`
  is `fullTrigger`: the stored index equals the current period and is nonzero.
-/

/-- Runtime errors the Python code can raise in the modelled fragment. -/
inductive PyError where
  | zeroDivision
  | typeError
deriving DecidableEq

/-- One row of the schedule: the dict appended by `generate_schedule`.
All four monetary fields are stored rounded to two decimals (`round(_, 2)`). -/
structure PeriodRecord where
  period : ℤ
  principal_payment : ℚ
  interest_payment : ℚ
  total_payment : ℚ
  remaining_balance : ℚ
deriving DecidableEq

/-- Python `round(x, 2)` over ℚ: round `100*x` to the nearest integer and
divide back by 100. -/
def round2 (x : ℚ) : ℚ := ((round (100 * x) : ℤ) : ℚ) / 100

/-- The caller-supplied arguments of `Loan.__init__`. -/
structure LoanInput where
  principal : ℚ
  annual_rate : ℚ
  years : ℤ
  payments_per_year : ℤ
  loan_type : String
  prepayment : ℤ → ℚ
  full_prepayment_at : Option ℤ

/-- The state of a constructed `Loan` object: the stored inputs plus the three
derived attributes `period_rate`, `total_periods` and `payment` computed by
`__init__`. -/
structure Loan where
  principal : ℚ
  annual_rate : ℚ
  years : ℤ
  payments_per_year : ℤ
  loan_type : String
  prepayment : ℤ → ℚ
  full_prepayment_at : Option ℤ
  period_rate : ℚ
  total_periods : ℤ
  payment : Option ℚ

/-- `Loan._calculate_equal_payment`:
`A = (principal * i * (1 + i) ** N) / ((1 + i) ** N - 1)`.
Python raises `ZeroDivisionError` when `(1+i) ** N` has a zero base and a
negative exponent, or when the denominator `(1+i)^N - 1` is zero (in
particular whenever `i = 0`). -/
def calcEqualPayment (principal i : ℚ) (N : ℤ) : Except PyError ℚ :=
  if 1 + i = 0 ∧ N < 0 then .error .zeroDivision
  else if (1 + i) ^ N - 1 = 0 then .error .zeroDivision
  else .ok (principal * i * (1 + i) ^ N / ((1 + i) ^ N - 1))

/-- `Loan.__init__`: stores the inputs, derives
`period_rate = annual_rate / payments_per_year` (ZeroDivisionError when
`payments_per_year = 0`), `total_periods = years * payments_per_year`, and for
`loan_type = "equal_payment"` computes `payment` via `calcEqualPayment`
(otherwise `payment = None`).  No input validation is performed. -/
def mkLoan (inp : LoanInput) : Except PyError Loan :=
  if inp.payments_per_year = 0 then .error .zeroDivision
  else
    let i := inp.annual_rate / (inp.payments_per_year : ℚ)
    let N := inp.years * inp.payments_per_year
    if inp.loan_type = "equal_payment" then
      (calcEqualPayment inp.principal i N).map (fun A =>
        ⟨inp.principal, inp.annual_rate, inp.years, inp.payments_per_year,
         inp.loan_type, inp.prepayment, inp.full_prepayment_at, i, N, some A⟩)
    else
      .ok ⟨inp.principal, inp.annual_rate, inp.years, inp.payments_per_year,
           inp.loan_type, inp.prepayment, inp.full_prepayment_at, i, N, none⟩

/-- Python truthiness of line 78:
`if self.full_prepayment_at and period == self.full_prepayment_at`:
the stored index is non-`None`, nonzero, and equal to the current period. -/
def fullTrigger (fp : Option ℤ) (p : ℤ) : Prop := fp = some p ∧ p ≠ 0

instance (fp : Option ℤ) (p : ℤ) : Decidable (fullTrigger fp p) :=
  inferInstanceAs (Decidable (fp = some p ∧ p ≠ 0))

/-- The loop body of `Loan.generate_schedule` (lines 56-92), one recursive
step per period of the remaining period list, carrying the unrounded balance.
`eqp` is the `equal_principal` local (`balance / N` when
`loan_type == "equal_principal"`, `None` otherwise); using it in the
`else` branch when it is `None` is Python's `None + float` `TypeError`. -/
def genAux (L : Loan) (eqp : Option ℚ) : List ℤ → ℚ → Except PyError (List PeriodRecord)
  | [], _ => .ok []
  | p :: ps, balance =>
    if balance ≤ 0 then .ok []
    else
      let interest := balance * L.period_rate
      match (if L.loan_type = "equal_payment"
             then some (L.payment.getD 0 - interest, L.payment.getD 0)
             else eqp.map (fun e => (e, e + interest))) with
      | none => .error .typeError
      | some (pp0, tp0) =>
        let pp1 := pp0 + L.prepayment p
        let tp1 := tp0 + L.prepayment p
        let b1 := max (balance - pp1) 0
        let z := if fullTrigger L.full_prepayment_at p ∧ 0 < b1
                 then (pp1 + b1, tp1 + b1, (0 : ℚ))
                 else (pp1, tp1, b1)
        let entry : PeriodRecord :=
          ⟨p, round2 z.1, round2 interest, round2 z.2.1, round2 z.2.2⟩
        if z.2.2 ≤ 0 then .ok [entry]
        else (genAux L eqp ps z.2.2).map (fun rest => entry :: rest)

/-- `range(1, int(N) + 1)` as a list of integers. -/
def periodRange (N : ℤ) : List ℤ := (List.range' 1 N.toNat).map Int.ofNat

/-- `Loan.generate_schedule` (lines 45-94): the `equal_principal` local is
`balance / N` when `loan_type == "equal_principal"` (ZeroDivisionError when
`N = 0`), then the period loop starting from `balance = principal`. -/
def Loan.generate_schedule (L : Loan) : Except PyError (List PeriodRecord) :=
  if L.loan_type = "equal_principal" ∧ L.total_periods = 0 then .error .zeroDivision
  else
    genAux L
      (if L.loan_type = "equal_principal"
       then some (L.principal / (L.total_periods : ℚ)) else none)
      (periodRange L.total_periods) L.principal

/-- The `equal_payment` loop of `Loan._calculate_original_interest`
(lines 127-133): per period, `interest = balance * i`,
`balance -= A - interest`, `total_interest += interest`; no rounding. -/
def origAuxEp (i A : ℚ) : ℕ → ℚ → ℚ → ℚ
  | 0, _, acc => acc
  | n + 1, balance, acc => origAuxEp i A n (balance - (A - balance * i)) (acc + balance * i)

/-- The `else` loop of `Loan._calculate_original_interest` (lines 134-139):
constant `principal_payment = c`, per period `balance -= c`,
`total_interest += balance * i`; no rounding. -/
def origAuxPr (i c : ℚ) : ℕ → ℚ → ℚ → ℚ
  | 0, _, acc => acc
  | n + 1, balance, acc => origAuxPr i c n (balance - c) (acc + balance * i)

/-- `Loan._calculate_original_interest` (lines 118-141): re-runs the recurrence
with no prepayments over the full `int(N)` periods, accumulating unrounded
interest, and rounds the final sum once.  The `equal_payment` branch recomputes
the payment (same failure modes as construction); the `else` branch divides by
`N` (ZeroDivisionError when `N = 0`). -/
def Loan.calculate_original_interest (L : Loan) : Except PyError ℚ :=
  if L.loan_type = "equal_payment" then
    (calcEqualPayment L.principal L.period_rate L.total_periods).map
      (fun A => round2 (origAuxEp L.period_rate A L.total_periods.toNat L.principal 0))
  else
    if L.total_periods = 0 then .error .zeroDivision
    else .ok (round2 (origAuxPr L.period_rate (L.principal / (L.total_periods : ℚ))
      L.total_periods.toNat L.principal 0))

/-- `sum(item['Interest Payment'] for item in schedule)` in `Loan.summary`. -/
def total_interest_of (recs : List PeriodRecord) : ℚ :=
  (recs.map PeriodRecord.interest_payment).sum

/-- `sum(item['Total Payment'] for item in schedule)` in `Loan.summary`. -/
def total_payment_of (recs : List PeriodRecord) : ℚ :=
  (recs.map PeriodRecord.total_payment).sum

/-- The interest-saved quantity of `Loan.summary` (lines 113-115): the saving
`origin - total` is reported when `total < origin`, otherwise no saving (0). -/
def interestSaved (origin total : ℚ) : ℚ :=
  if total < origin then origin - total else 0

/-- One unrounded schedule row (the values of period, principal component,
interest, total payment and post-period balance before any `round(_, 2)`). -/
structure RawRecord where
  period : ℤ
  principal_payment : ℚ
  interest_payment : ℚ
  total_payment : ℚ
  remaining_balance : ℚ
deriving DecidableEq

/-- Reporting map: round the four monetary fields of a raw row. -/
def roundRec (r : RawRecord) : PeriodRecord :=
  ⟨r.period, round2 r.principal_payment, round2 r.interest_payment,
   round2 r.total_payment, round2 r.remaining_balance⟩

/-- Modelled from the spec: the unrounded schedule recurrence.  The engine
"carries the *unrounded* balance arithmetic internally across periods and only
rounds for reporting"; this is `genAux` with every `round(_, 2)` removed. -/
def rawAux (L : Loan) (eqp : Option ℚ) : List ℤ → ℚ → Except PyError (List RawRecord)
  | [], _ => .ok []
  | p :: ps, balance =>
    if balance ≤ 0 then .ok []
    else
      let interest := balance * L.period_rate
      match (if L.loan_type = "equal_payment"
             then some (L.payment.getD 0 - interest, L.payment.getD 0)
             else eqp.map (fun e => (e, e + interest))) with
      | none => .error .typeError
      | some (pp0, tp0) =>
        let pp1 := pp0 + L.prepayment p
        let tp1 := tp0 + L.prepayment p
        let b1 := max (balance - pp1) 0
        let z := if fullTrigger L.full_prepayment_at p ∧ 0 < b1
                 then (pp1 + b1, tp1 + b1, (0 : ℚ))
                 else (pp1, tp1, b1)
        let entry : RawRecord := ⟨p, z.1, interest, z.2.1, z.2.2⟩
        if z.2.2 ≤ 0 then .ok [entry]
        else (rawAux L eqp ps z.2.2).map (fun rest => entry :: rest)

/-- Modelled from the spec: `generate_schedule` on the unrounded recurrence. -/
def Loan.raw_schedule (L : Loan) : Except PyError (List RawRecord) :=
  if L.loan_type = "equal_principal" ∧ L.total_periods = 0 then .error .zeroDivision
  else
    rawAux L
      (if L.loan_type = "equal_principal"
       then some (L.principal / (L.total_periods : ℚ)) else none)
      (periodRange L.total_periods) L.principal

/-- Modelled from the spec: the baseline calculator "accumulating unrounded
interest each period, returning the sum rounded to 2 decimals at the end";
this is its unrounded sum, before the single final rounding. -/
def Loan.raw_original_interest (L : Loan) : Except PyError ℚ :=
  if L.loan_type = "equal_payment" then
    (calcEqualPayment L.principal L.period_rate L.total_periods).map
      (fun A => origAuxEp L.period_rate A L.total_periods.toNat L.principal 0)
  else
    if L.total_periods = 0 then .error .zeroDivision
    else .ok (origAuxPr L.period_rate (L.principal / (L.total_periods : ℚ))
      L.total_periods.toNat L.principal 0)

/-- The shape of one `genAux` step once the convention branch is resolved:
there is a post-period balance `b2` and a record `entry` such that the step
either stops (`b2 ≤ 0`) or conses `entry` and recurses on `b2`, where `pp0f b`
is the scheduled principal component for balance `b`.  The balance never goes
negative, never exceeds the clamped scheduled decrease, and equals it exactly
when no full payoff is configured. -/
def StepShape (L : Loan) (eqp : Option ℚ) (pp0f : ℚ → ℚ) : Prop :=
  ∀ (p : ℤ) (ps : List ℤ) (b : ℚ), 0 < b →
    ∃ b2 entry,
      genAux L eqp (p :: ps) b =
        (if b2 ≤ 0 then .ok [entry]
         else (genAux L eqp ps b2).map (fun rest => entry :: rest)) ∧
      entry.period = p ∧
      entry.interest_payment = round2 (b * L.period_rate) ∧
      entry.remaining_balance = round2 b2 ∧
      0 ≤ b2 ∧
      b2 ≤ max (b - (pp0f b + L.prepayment p)) 0 ∧
      (L.full_prepayment_at = none → b2 = max (b - (pp0f b + L.prepayment p)) 0)

/-- One step of the exact (clamp-free) `equal_payment` balance recurrence:
`x - (A - x*i) = (1+i)*x - A`. -/
def epIterStep (i A : ℚ) (x : ℚ) : ℚ := x - (A - x * i)

/-- One step of the exact `equal_principal` balance recurrence: `x - c`. -/
def prIterStep (c : ℚ) (x : ℚ) : ℚ := x - c

/-- C1 failing input: a 0% annual rate `equal_payment` loan. -/
def inpC1 : LoanInput := ⟨1200, 0, 1, 12, "equal_payment", fun _ => 0, none⟩

/-- C2 counterexample input: non-positive years and payments-per-year and a
prepayment entry at period index 0. -/
def inpC2 : LoanInput :=
  ⟨1200, 0, -1, -2, "equal_principal", (fun p => if p = 0 then 50 else 0), none⟩

/-- The `Loan` object `inpC2` constructs (no error is raised). -/
def loanC2 : Loan :=
  ⟨1200, 0, -1, -2, "equal_principal", (fun p => if p = 0 then 50 else 0), none,
   0, 2, none⟩

/-- C3 counterexample input: an unrecognized repayment convention. -/
def inpC3 : LoanInput := ⟨100, 1/10, 1, 12, "foo", fun _ => 0, none⟩

/-- The `Loan` object `inpC3` constructs (no error is raised). -/
def loanC3 : Loan := ⟨100, 1/10, 1, 12, "foo", fun _ => 0, none, 1/120, 12, none⟩

/-- C5 counterexample input: a negative prepayment amount at period 2. -/
def inpC5 : LoanInput :=
  ⟨100, 0, 1, 2, "equal_principal", (fun p => if p = 2 then -1000 else 0), none⟩

/-- The `Loan` object `inpC5` constructs. -/
def loanC5 : Loan :=
  ⟨100, 0, 1, 2, "equal_principal", (fun p => if p = 2 then -1000 else 0), none,
   0, 2, none⟩

/-- C7 counterexample input: tiny principal, periodic rate 1, two periods,
a positive prepayment at period 2. -/
def inpC7 : LoanInput :=
  ⟨1/125, 1, 2, 1, "equal_payment", (fun p => if p = 2 then 1 else 0), none⟩

/-- The `Loan` object `inpC7` constructs (`payment = 4/375`). -/
def loanC7 : Loan :=
  ⟨1/125, 1, 2, 1, "equal_payment", (fun p => if p = 2 then 1 else 0), none,
   1, 2, some (4/375)⟩

/-- C6 witness loan: equal-principal, 4 periods, full payoff at period 2. -/
def loanC6 : Loan :=
  ⟨100, 0, 1, 4, "equal_principal", fun _ => 0, some 2, 0, 4, none⟩

/-- Witness input for C4/C7: one period, periodic rate 1. -/
def inpW4 : LoanInput := ⟨100, 1, 1, 1, "equal_payment", fun _ => 0, none⟩

/-- The `Loan` object `inpW4` constructs (`payment = 200`). -/
def loanW4 : Loan := ⟨100, 1, 1, 1, "equal_payment", fun _ => 0, none, 1, 1, some 200⟩

/-- First C10 witness input. -/
def inpC10a : LoanInput := ⟨1000, 1/10, 1, 12, "equal_payment", fun _ => 0, none⟩

/-- Second C10 witness input: same terms, very different plan. -/
def inpC10b : LoanInput := ⟨1000, 1/10, 1, 12, "equal_payment", fun _ => 999, some 5⟩

/-! ### Basic facts about the embedded operations -/

theorem genAux_nil (L : Loan) (eqp : Option ℚ) (b : ℚ) : genAux L eqp [] b = .ok [] := rfl

theorem genAux_nonpos (L : Loan) (eqp : Option ℚ) (ps : List ℤ) (b : ℚ) (hb : b ≤ 0) :
    genAux L eqp ps b = .ok [] := by
  cases ps with
  | nil => rfl
  | cons p ps =>
    rw [genAux.eq_def]
    dsimp only
    rw [if_pos hb]

theorem genAux_cons_pr (L : Loan) (c : ℚ) (p : ℤ) (ps : List ℤ) (b : ℚ)
    (hlt : ¬ L.loan_type = "equal_payment") (hb : ¬ b ≤ 0) :
    genAux L (some c) (p :: ps) b =
      (let pp1 := c + L.prepayment p
       let tp1 := c + b * L.period_rate + L.prepayment p
       let b1 := max (b - pp1) 0
       let z := if fullTrigger L.full_prepayment_at p ∧ 0 < b1
                then (pp1 + b1, tp1 + b1, (0:ℚ)) else (pp1, tp1, b1)
       let entry : PeriodRecord :=
         ⟨p, round2 z.1, round2 (b * L.period_rate), round2 z.2.1, round2 z.2.2⟩
       if z.2.2 ≤ 0 then .ok [entry]
       else (genAux L (some c) ps z.2.2).map (fun rest => entry :: rest)) := by
  rw [genAux.eq_def]
  dsimp only
  rw [if_neg hb, if_neg hlt]
  dsimp only [Option.map]

theorem genAux_cons_ep (L : Loan) (eqp : Option ℚ) (A : ℚ) (p : ℤ) (ps : List ℤ) (b : ℚ)
    (hlt : L.loan_type = "equal_payment") (hpay : L.payment = some A) (hb : ¬ b ≤ 0) :
    genAux L eqp (p :: ps) b =
      (let pp1 := A - b * L.period_rate + L.prepayment p
       let tp1 := A + L.prepayment p
       let b1 := max (b - pp1) 0
       let z := if fullTrigger L.full_prepayment_at p ∧ 0 < b1
                then (pp1 + b1, tp1 + b1, (0:ℚ)) else (pp1, tp1, b1)
       let entry : PeriodRecord :=
         ⟨p, round2 z.1, round2 (b * L.period_rate), round2 z.2.1, round2 z.2.2⟩
       if z.2.2 ≤ 0 then .ok [entry]
       else (genAux L eqp ps z.2.2).map (fun rest => entry :: rest)) := by
  rw [genAux.eq_def]
  dsimp only
  rw [if_neg hb, if_pos hlt, hpay]
  dsimp only [Option.getD]

theorem genAux_cons_other (L : Loan) (p : ℤ) (ps : List ℤ) (b : ℚ)
    (hlt : ¬ L.loan_type = "equal_payment") (hb : ¬ b ≤ 0) :
    genAux L none (p :: ps) b = .error .typeError := by
  rw [genAux.eq_def]
  dsimp only
  rw [if_neg hb, if_neg hlt]
  dsimp only [Option.map]

theorem round2_zero : round2 0 = 0 := by norm_num [round2]

theorem round2_nonneg (x : ℚ) (hx : 0 ≤ x) : 0 ≤ round2 x := by
  have h : (0:ℤ) ≤ round (100 * x) := by
    rw [round_eq]
    exact Int.floor_nonneg.mpr (by linarith)
  rw [round2]
  have h2 : (0:ℚ) ≤ ((round (100 * x) : ℤ) : ℚ) := by exact_mod_cast h
  linarith

theorem round2_mono {x y : ℚ} (h : x ≤ y) : round2 x ≤ round2 y := by
  rw [round2, round2]
  have h1 : round (100 * x) ≤ round (100 * y) := by
    rw [round_eq, round_eq]
    exact Int.floor_le_floor (by linarith)
  have h2 : ((round (100 * x) : ℤ) : ℚ) ≤ ((round (100 * y) : ℤ) : ℚ) := by exact_mod_cast h1
  linarith

theorem round2_le_add (x : ℚ) : round2 x ≤ x + 1 / 200 := by
  have h : |100 * x - (round (100 * x) : ℚ)| ≤ 1 / 2 := abs_sub_round (100 * x)
  rw [abs_le] at h
  rw [round2]
  obtain ⟨h1, h2⟩ := h
  linarith

theorem le_round2_add (x : ℚ) : x ≤ round2 x + 1 / 200 := by
  have h : |100 * x - (round (100 * x) : ℚ)| ≤ 1 / 2 := abs_sub_round (100 * x)
  rw [abs_le] at h
  rw [round2]
  obtain ⟨h1, h2⟩ := h
  linarith

theorem round2_sum_close (a c : ℚ) :
    |round2 c + round2 a - round2 (a + c)| ≤ 1 / 100 := by
  have ha : |100 * a - (round (100 * a) : ℚ)| ≤ 1 / 2 := abs_sub_round (100 * a)
  have hc : |100 * c - (round (100 * c) : ℚ)| ≤ 1 / 2 := abs_sub_round (100 * c)
  have hs : |100 * (a + c) - (round (100 * (a + c)) : ℚ)| ≤ 1 / 2 :=
    abs_sub_round (100 * (a + c))
  rw [abs_le] at ha hc hs
  have hcast : |((round (100 * c) + round (100 * a) - round (100 * (a + c)) : ℤ) : ℚ)| ≤ 3 / 2 := by
    rw [abs_le]
    push_cast
    constructor <;> linarith [ha.1, ha.2, hc.1, hc.2, hs.1, hs.2]
  have hint : |round (100 * c) + round (100 * a) - round (100 * (a + c))| ≤ 1 := by
    have h2 : ((|round (100 * c) + round (100 * a) - round (100 * (a + c))| : ℤ) : ℚ) < 2 := by
      rw [Int.cast_abs]
      calc |((round (100 * c) + round (100 * a) - round (100 * (a + c)) : ℤ) : ℚ)| ≤ 3 / 2 := hcast
        _ < 2 := by norm_num
    have h3 : |round (100 * c) + round (100 * a) - round (100 * (a + c))| < 2 := by exact_mod_cast h2
    omega
  have heq : round2 c + round2 a - round2 (a + c) =
      ((round (100 * c) + round (100 * a) - round (100 * (a + c)) : ℤ) : ℚ) / 100 := by
    rw [round2, round2, round2]
    push_cast
    ring
  rw [heq, abs_div, abs_of_pos (by norm_num : (0:ℚ) < 100)]
  have h4 : |((round (100 * c) + round (100 * a) - round (100 * (a + c)) : ℤ) : ℚ)| ≤ 1 := by
    rw [← Int.cast_abs]
    exact_mod_cast hint
  linarith

theorem exceptMap_eq_ok {α β ε : Type} {f : α → β} {e : Except ε α} {b : β}
    (h : Except.map f e = .ok b) : ∃ a, e = .ok a ∧ f a = b := by
  cases e with
  | error err => simp [Except.map] at h
  | ok a =>
    refine ⟨a, rfl, ?_⟩
    simpa [Except.map] using h

theorem calcEqualPayment_ok {P i : ℚ} {N : ℤ} {A : ℚ}
    (h : calcEqualPayment P i N = .ok A) :
    ¬(1 + i = 0 ∧ N < 0) ∧ (1 + i) ^ N - 1 ≠ 0 ∧
      A = P * i * (1 + i) ^ N / ((1 + i) ^ N - 1) := by
  unfold calcEqualPayment at h
  split at h
  · cases h
  · split at h
    · cases h
    · rename_i h1 h2
      exact ⟨h1, h2, by cases h; rfl⟩

theorem mkLoan_ok_ep {inp : LoanInput} {L : Loan}
    (hlt : inp.loan_type = "equal_payment") (h : mkLoan inp = .ok L) :
    inp.payments_per_year ≠ 0 ∧
    ∃ A, calcEqualPayment inp.principal (inp.annual_rate / (inp.payments_per_year : ℚ))
        (inp.years * inp.payments_per_year) = .ok A ∧
      L = ⟨inp.principal, inp.annual_rate, inp.years, inp.payments_per_year,
           inp.loan_type, inp.prepayment, inp.full_prepayment_at,
           inp.annual_rate / (inp.payments_per_year : ℚ),
           inp.years * inp.payments_per_year, some A⟩ := by
  unfold mkLoan at h
  split at h
  · cases h
  · rename_i hppy
    obtain ⟨A, hA, hL⟩ := exceptMap_eq_ok h
    exact ⟨hppy, A, hA, hL.symm⟩

theorem mkLoan_ok_pr {inp : LoanInput} {L : Loan}
    (hlt : ¬ inp.loan_type = "equal_payment") (h : mkLoan inp = .ok L) :
    inp.payments_per_year ≠ 0 ∧
    L = ⟨inp.principal, inp.annual_rate, inp.years, inp.payments_per_year,
         inp.loan_type, inp.prepayment, inp.full_prepayment_at,
         inp.annual_rate / (inp.payments_per_year : ℚ),
         inp.years * inp.payments_per_year, none⟩ := by
  unfold mkLoan at h
  split at h
  · cases h
  · rename_i hppy
    cases h
    exact ⟨hppy, rfl⟩

theorem generate_schedule_ok_elim {L : Loan} {recs : List PeriodRecord}
    (h : Loan.generate_schedule L = .ok recs) :
    ¬(L.loan_type = "equal_principal" ∧ L.total_periods = 0) ∧
    genAux L
      (if L.loan_type = "equal_principal"
       then some (L.principal / (L.total_periods : ℚ)) else none)
      (periodRange L.total_periods) L.principal = .ok recs := by
  unfold Loan.generate_schedule at h
  split at h
  · cases h
  · rename_i hg
    exact ⟨hg, h⟩

theorem stepShape_ep (L : Loan) (eqp : Option ℚ) (A : ℚ)
    (hlt : L.loan_type = "equal_payment") (hpay : L.payment = some A) :
    StepShape L eqp (fun b => A - b * L.period_rate) := by
  intro p ps b hb
  rw [genAux_cons_ep L eqp A p ps b hlt hpay (not_le.mpr hb)]
  dsimp only
  by_cases hz : fullTrigger L.full_prepayment_at p ∧
      0 < max (b - (A - b * L.period_rate + L.prepayment p)) 0
  · rw [if_pos hz]
    refine ⟨0, _, rfl, rfl, rfl, rfl, le_refl 0, le_max_right _ _, ?_⟩
    intro hfp
    rw [hfp] at hz
    exact absurd hz.1.1 (by intro hc; exact Option.noConfusion hc)
  · rw [if_neg hz]
    exact ⟨max (b - (A - b * L.period_rate + L.prepayment p)) 0, _, rfl, rfl, rfl, rfl,
      le_max_right _ _, le_refl _, fun _ => rfl⟩

theorem stepShape_pr (L : Loan) (c : ℚ)
    (hlt : ¬ L.loan_type = "equal_payment") :
    StepShape L (some c) (fun _ => c) := by
  intro p ps b hb
  rw [genAux_cons_pr L c p ps b hlt (not_le.mpr hb)]
  dsimp only
  by_cases hz : fullTrigger L.full_prepayment_at p ∧
      0 < max (b - (c + L.prepayment p)) 0
  · rw [if_pos hz]
    refine ⟨0, _, rfl, rfl, rfl, rfl, le_refl 0, le_max_right _ _, ?_⟩
    intro hfp
    rw [hfp] at hz
    exact absurd hz.1.1 (by intro hc; exact Option.noConfusion hc)
  · rw [if_neg hz]
    exact ⟨max (b - (c + L.prepayment p)) 0, _, rfl, rfl, rfl, rfl,
      le_max_right _ _, le_refl _, fun _ => rfl⟩
theorem epIter_closed (i A P : ℚ) (n : ℕ)
    (hD : (1 + i) ^ n - 1 ≠ 0)
    (hA : A = P * i * (1 + i) ^ n / ((1 + i) ^ n - 1)) :
    ∀ j : ℕ, (epIterStep i A)^[j] P =
      P * ((1 + i) ^ n - (1 + i) ^ j) / ((1 + i) ^ n - 1) := by
  intro j
  induction j with
  | zero =>
    rw [Function.iterate_zero_apply]
    field_simp
  | succ j ihj =>
    rw [Function.iterate_succ_apply', ihj, epIterStep, hA]
    field_simp
    ring

theorem prIter_closed (c P : ℚ) : ∀ j : ℕ, (prIterStep c)^[j] P = P - j * c := by
  intro j
  induction j with
  | zero => simp
  | succ j ihj =>
    rw [Function.iterate_succ_apply', ihj, prIterStep]
    push_cast
    ring

theorem getLast?_cons_ne {α : Type} (a : α) (l : List α) (h : l ≠ []) :
    (a :: l).getLast? = l.getLast? := by
  cases l with
  | nil => exact absurd rfl h
  | cons b t => simp [List.getLast?_cons_cons]

theorem c4_run (L : Loan) (eqp : Option ℚ) (pp0f st : ℚ → ℚ)
    (hst : ∀ b, st b = b - pp0f b)
    (hs : StepShape L eqp pp0f)
    (hfp : L.full_prepayment_at = none)
    (hpre : ∀ p, L.prepayment p = 0) :
    ∀ (k : ℕ), 1 ≤ k → ∀ (ps : List ℤ) (b : ℚ), ps.length = k →
      (∀ j, j < k → 0 < st^[j] b) → st^[k] b = 0 →
      ∃ recs lastRec, genAux L eqp ps b = .ok recs ∧ recs.length = k ∧
        recs.getLast? = some lastRec ∧ lastRec.remaining_balance = 0 := by
  intro k
  induction k with
  | zero => intro h; exact absurd h (by omega)
  | succ k ih =>
    intro _ ps b hlen hpos hzero
    obtain ⟨p, ps2, rfl⟩ : ∃ p ps2, ps = p :: ps2 := by
      cases ps with
      | nil => simp at hlen
      | cons a l => exact ⟨a, l, rfl⟩
    have hb : 0 < b := by
      have h0 := hpos 0 (by omega)
      simpa using h0
    obtain ⟨b2, entry, heq, hper, hint, hbal, hb2nn, hb2le, hb2eq⟩ := hs p ps2 b hb
    have hstb_nonneg : 0 ≤ st b := by
      rcases Nat.eq_zero_or_pos k with hk0 | hkpos
      · subst hk0
        have h1 : st^[1] b = 0 := hzero
        rw [Function.iterate_one] at h1
        exact le_of_eq h1.symm
      · have h1 := hpos 1 (by omega)
        rw [Function.iterate_one] at h1
        exact le_of_lt h1
    have hb2 : b2 = st b := by
      rw [hb2eq hfp, hpre p, add_zero, hst]
      exact max_eq_left (by rw [hst] at hstb_nonneg; exact hstb_nonneg)
    rcases Nat.eq_zero_or_pos k with hk0 | hkpos
    · subst hk0
      have hb20 : b2 = 0 := by
        have h1 : st^[1] b = 0 := hzero
        rw [Function.iterate_one] at h1
        rw [hb2, h1]
      rw [hb20] at heq
      rw [if_pos (le_refl (0:ℚ))] at heq
      have hlen2 : ps2 = [] := by
        cases ps2 with
        | nil => rfl
        | cons a l => simp at hlen
      refine ⟨[entry], entry, heq, by simp, rfl, ?_⟩
      rw [hbal, hb20, round2_zero]
    · have hb2pos : 0 < b2 := by
        have h1 := hpos 1 (by omega)
        rw [Function.iterate_one] at h1
        rw [hb2]; exact h1
      rw [if_neg (not_le.mpr hb2pos)] at heq
      obtain ⟨recs2, last2, hgen2, hlen2, hlast2, hbal2⟩ :=
        ih hkpos ps2 b2 (by simpa using hlen)
          (fun j hj => by
            rw [hb2, ← Function.iterate_succ_apply]
            exact hpos (j + 1) (by omega))
          (by rw [hb2, ← Function.iterate_succ_apply]; exact hzero)
      rw [hgen2] at heq
      refine ⟨entry :: recs2, last2, by simpa [Except.map] using heq, by simp [hlen2], ?_, hbal2⟩
      rw [getLast?_cons_ne entry recs2 (by intro hnil; rw [hnil] at hlen2; simp at hlen2; omega)]
      exact hlast2
theorem periodRange_length (N : ℤ) : (periodRange N).length = N.toNat := by
  simp [periodRange]

/-- C4: for valid terms (positive principal, nonnegative rate, positive years
and payments-per-year), an empty prepayment plan, no full-payoff period, and a
convention that is one of the two recognized ones, if construction succeeds
then the schedule is produced, has exactly `years * payments_per_year` rows,
and its final row's remaining balance is 0 within the 0.01 tolerance. -/
theorem c4_schedule_full_run (inp : LoanInput) (L : Loan)
    (hP : 0 < inp.principal) (hr : 0 ≤ inp.annual_rate)
    (hy : 0 < inp.years) (hppy : 0 < inp.payments_per_year)
    (hpre : ∀ p, inp.prepayment p = 0) (hfp : inp.full_prepayment_at = none)
    (hlt : inp.loan_type = "equal_payment" ∨ inp.loan_type = "equal_principal")
    (hmk : mkLoan inp = .ok L) :
    ∃ recs lastRec, Loan.generate_schedule L = .ok recs ∧
      (recs.length : ℤ) = inp.years * inp.payments_per_year ∧
      recs.getLast? = some lastRec ∧ |lastRec.remaining_balance - 0| ≤ 1 / 100 := by
  have hN : 0 < inp.years * inp.payments_per_year := mul_pos hy hppy
  have hNcast : ((inp.years * inp.payments_per_year).toNat : ℤ) =
      inp.years * inp.payments_per_year := Int.toNat_of_nonneg hN.le
  set n := (inp.years * inp.payments_per_year).toNat with hn
  have hn1 : 1 ≤ n := by omega
  rcases hlt with hep | hpr
  · -- equal_payment
    obtain ⟨hppy0, A, hA, hL⟩ := mkLoan_ok_ep hep hmk
    obtain ⟨hg1, hD, hAval⟩ := calcEqualPayment_ok hA
    set i := inp.annual_rate / (inp.payments_per_year : ℚ) with hi
    have hiNN : 0 ≤ i := by
      apply div_nonneg hr
      exact_mod_cast hppy.le
    have hzn : (1 + i) ^ (inp.years * inp.payments_per_year) = (1 + i) ^ n := by
      rw [← hNcast, zpow_natCast]
    rw [hzn] at hD hAval
    have hi0 : i ≠ 0 := by
      intro h0
      apply hD
      rw [h0]
      simp
    have hipos : 0 < i := lt_of_le_of_ne hiNN (Ne.symm hi0)
    have hone : 1 < 1 + i := by linarith
    have hDpos : 0 < (1 + i) ^ n - 1 :=
      sub_pos.mpr (one_lt_pow₀ hone (by omega))
    have hclosed := epIter_closed i A inp.principal n hD hAval
    have hpos : ∀ j, j < n → 0 < (epIterStep i A)^[j] inp.principal := by
      intro j hj
      rw [hclosed j]
      have hlt2 : (1 + i) ^ j < (1 + i) ^ n := pow_lt_pow_right₀ hone hj
      exact div_pos (mul_pos hP (sub_pos.mpr hlt2)) hDpos
    have hzero : (epIterStep i A)^[n] inp.principal = 0 := by
      rw [hclosed n]
      simp
    subst hL
    have hrun := c4_run
      ⟨inp.principal, inp.annual_rate, inp.years, inp.payments_per_year,
       inp.loan_type, inp.prepayment, inp.full_prepayment_at, i,
       inp.years * inp.payments_per_year, some A⟩
      none (fun b => A - b * i) (epIterStep i A)
      (fun b => rfl) (stepShape_ep _ none A hep rfl) hfp hpre
      n hn1 (periodRange (inp.years * inp.payments_per_year)) inp.principal
      (by rw [periodRange_length]) hpos hzero
    obtain ⟨recs, lastRec, hgen, hlen, hlast, hbal⟩ := hrun
    have hnp : ¬ inp.loan_type = "equal_principal" := by
      rw [hep]
      decide
    refine ⟨recs, lastRec, ?_, ?_, hlast, ?_⟩
    · unfold Loan.generate_schedule
      dsimp only
      rw [if_neg (fun hand => hnp hand.1), if_neg hnp]
      exact hgen
    · rw [hlen, hNcast]
    · rw [hbal]
      norm_num
  · -- equal_principal
    have hep2 : ¬ inp.loan_type = "equal_payment" := by
      rw [hpr]
      decide
    obtain ⟨hppy0, hL⟩ := mkLoan_ok_pr hep2 hmk
    set c := inp.principal / ((inp.years * inp.payments_per_year : ℤ) : ℚ) with hc
    have hNq : ((inp.years * inp.payments_per_year : ℤ) : ℚ) = (n : ℚ) := by
      rw [← hNcast]
      push_cast
      ring
    have hnq : (0:ℚ) < (n : ℚ) := by
      exact_mod_cast hn1
    have hclosed := prIter_closed c inp.principal
    have hpos : ∀ j, j < n → 0 < (prIterStep c)^[j] inp.principal := by
      intro j hj
      rw [hclosed j, hc, hNq]
      have heq2 : inp.principal - (j : ℚ) * (inp.principal / (n : ℚ)) =
          inp.principal * ((n : ℚ) - (j : ℚ)) / (n : ℚ) := by
        field_simp
        ring
      rw [heq2]
      have hjn : (j : ℚ) < (n : ℚ) := by exact_mod_cast hj
      apply div_pos (mul_pos hP (by linarith)) hnq
    have hzero : (prIterStep c)^[n] inp.principal = 0 := by
      rw [hclosed n, hc, hNq]
      field_simp
    subst hL
    have hrun := c4_run
      ⟨inp.principal, inp.annual_rate, inp.years, inp.payments_per_year,
       inp.loan_type, inp.prepayment, inp.full_prepayment_at,
       inp.annual_rate / (inp.payments_per_year : ℚ),
       inp.years * inp.payments_per_year, none⟩
      (some c) (fun _ => c) (prIterStep c)
      (fun b => rfl) (stepShape_pr _ c hep2) hfp hpre
      n hn1 (periodRange (inp.years * inp.payments_per_year)) inp.principal
      (by rw [periodRange_length]) hpos hzero
    obtain ⟨recs, lastRec, hgen, hlen, hlast, hbal⟩ := hrun
    have hguard : ¬ (inp.loan_type = "equal_principal" ∧
        inp.years * inp.payments_per_year = 0) := by
      rintro ⟨h1, h2⟩
      omega
    refine ⟨recs, lastRec, ?_, ?_, hlast, ?_⟩
    · unfold Loan.generate_schedule
      dsimp only
      rw [if_neg hguard, if_pos hpr]
      exact hgen
    · rw [hlen, hNcast]
    · rw [hbal]
      norm_num

/-- Witness for C4 at the concrete input `inpW4` (one period, rate 1). -/
theorem c4_schedule_full_run_witness :
    (0 < inpW4.principal ∧ 0 ≤ inpW4.annual_rate ∧ 0 < inpW4.years ∧
     0 < inpW4.payments_per_year ∧ (∀ p, inpW4.prepayment p = 0) ∧
     inpW4.full_prepayment_at = none ∧
     (inpW4.loan_type = "equal_payment" ∨ inpW4.loan_type = "equal_principal") ∧
     mkLoan inpW4 = .ok loanW4) ∧
    (∃ recs lastRec, Loan.generate_schedule loanW4 = .ok recs ∧
      (recs.length : ℤ) = inpW4.years * inpW4.payments_per_year ∧
      recs.getLast? = some lastRec ∧ |lastRec.remaining_balance - 0| ≤ 1 / 100) := by
  have hmk : mkLoan inpW4 = .ok loanW4 := by
    simp only [mkLoan, inpW4, loanW4, calcEqualPayment]
    norm_num [Except.map]
  refine ⟨⟨by norm_num [inpW4], by norm_num [inpW4], by norm_num [inpW4],
    by norm_num [inpW4], fun p => rfl, rfl, Or.inl rfl, hmk⟩, ?_⟩
  exact c4_schedule_full_run inpW4 loanW4 (by norm_num [inpW4]) (by norm_num [inpW4])
    (by norm_num [inpW4]) (by norm_num [inpW4]) (fun p => rfl) rfl (Or.inl rfl) hmk
/-- C1: the claim says a zero periodic rate is special-cased and the level
payment is `principal / totalPeriods`; in the code there is no special case,
and `_calculate_equal_payment` divides by `(1+0)^N - 1 = 0`: constructing the
`equal_payment` loan `inpC1` (principal 1200, annual rate 0, 12 monthly
periods) raises ZeroDivisionError instead of returning 100. -/
theorem c1_zero_rate_division_error : mkLoan inpC1 = .error .zeroDivision := by
  simp only [mkLoan, inpC1, calcEqualPayment]
  norm_num [Except.map]

/-- Evaluation: `inpC2` constructs without error. -/
theorem mkLoan_inpC2_eval : mkLoan inpC2 = .ok loanC2 := by
  simp only [mkLoan, inpC2, loanC2]
  rw [if_neg (by decide), if_neg (by decide)]
  norm_num

/-- Evaluation of the schedule of `loanC2`. -/
theorem loanC2_schedule_eval : Loan.generate_schedule loanC2 =
    .ok [⟨1, 600, 0, 600, 600⟩, ⟨2, 600, 0, 600, 0⟩] := by
  have h1 : periodRange (2:ℤ) = [1, 2] := rfl
  simp only [Loan.generate_schedule, loanC2]
  norm_num [String.reduceEq]
  rw [h1]
  rw [genAux_cons_pr _ _ _ _ _ (by simp) (by norm_num)]
  simp [fullTrigger, round2, round_eq]
  norm_num
  rw [genAux_cons_pr _ _ _ _ _ (by simp) (by norm_num)]
  simp [fullTrigger, round2, round_eq, Except.map]
  norm_num

/-- C2 counterexample: `inpC2` has non-positive years (-1), non-positive
payments-per-year (-2) and a prepayment entry at period index 0, yet
construction succeeds and a full two-row schedule is computed; no structured
error is raised before (or during) schedule computation. -/
theorem c2_counterexample :
    mkLoan inpC2 = .ok loanC2 ∧
    Loan.generate_schedule loanC2 =
      .ok [⟨1, 600, 0, 600, 600⟩, ⟨2, 600, 0, 600, 0⟩] :=
  ⟨mkLoan_inpC2_eval, loanC2_schedule_eval⟩

/-- C2 amended: `__init__` performs no input validation at all.  For every
input whose payments-per-year is nonzero and whose convention is not
`"equal_payment"`, construction succeeds regardless of the signs of principal,
rate, years, or of any prepayment/payoff index; invalid inputs flow straight
into schedule computation. -/
theorem c2_no_validation (inp : LoanInput) (hppy : inp.payments_per_year ≠ 0)
    (hlt : inp.loan_type ≠ "equal_payment") :
    ∃ L, mkLoan inp = .ok L := by
  unfold mkLoan
  rw [if_neg hppy]
  dsimp only
  rw [if_neg hlt]
  exact ⟨_, rfl⟩

/-- Witness for the amended C2 at the concrete invalid input `inpC2`. -/
theorem c2_no_validation_witness :
    (inpC2.payments_per_year ≠ 0 ∧ inpC2.loan_type ≠ "equal_payment") ∧
    ∃ L, mkLoan inpC2 = .ok L :=
  ⟨⟨by decide, by decide⟩, c2_no_validation inpC2 (by decide) (by decide)⟩

/-- C3 counterexample: the unrecognized convention string `"foo"` is accepted
at construction (no InvalidTerms rejection): `mkLoan inpC3` succeeds. -/
theorem c3_counterexample :
    mkLoan inpC3 = .ok loanC3 ∧ Loan.generate_schedule loanC3 = .error .typeError := by
  constructor
  · simp only [mkLoan, inpC3, loanC3]
    rw [if_neg (by decide), if_neg (by decide)]
    norm_num
  · have h1 : periodRange (12:ℤ) = [1,2,3,4,5,6,7,8,9,10,11,12] := rfl
    simp only [Loan.generate_schedule, loanC3]
    rw [if_neg (by decide), if_neg (by decide), h1]
    exact genAux_cons_other _ _ _ _ (by decide) (by norm_num)

/-- C3 amended: an unrecognized convention is accepted at construction
(`payment` is set to `None`); it is not treated as the `equal_principal`
convention either — on any loan with positive principal and at least one
period, schedule generation then fails with a `TypeError` (`None + float`)
at the first period. -/
theorem c3_unknown_convention (inp : LoanInput) (hppy : inp.payments_per_year ≠ 0)
    (h1 : inp.loan_type ≠ "equal_payment") (h2 : inp.loan_type ≠ "equal_principal")
    (hP : 0 < inp.principal) (hN : 0 < inp.years * inp.payments_per_year) :
    ∃ L, mkLoan inp = .ok L ∧ Loan.generate_schedule L = .error .typeError := by
  refine ⟨⟨inp.principal, inp.annual_rate, inp.years, inp.payments_per_year,
    inp.loan_type, inp.prepayment, inp.full_prepayment_at,
    inp.annual_rate / (inp.payments_per_year : ℚ),
    inp.years * inp.payments_per_year, none⟩, ?_, ?_⟩
  · unfold mkLoan
    rw [if_neg hppy]
    dsimp only
    rw [if_neg h1]
  · unfold Loan.generate_schedule
    dsimp only
    rw [if_neg (fun hand => h2 hand.1), if_neg h2]
    obtain ⟨m, hm⟩ : ∃ m, (inp.years * inp.payments_per_year).toNat = m + 1 :=
      ⟨(inp.years * inp.payments_per_year).toNat - 1, by omega⟩
    rw [show periodRange (inp.years * inp.payments_per_year) =
        (1 : ℤ) :: ((List.range' 2 m).map Int.ofNat) by rw [periodRange, hm]; rfl]
    exact genAux_cons_other _ _ _ _ h1 (not_le.mpr hP)

/-- Witness for the amended C3 at the concrete input `inpC3`. -/
theorem c3_unknown_convention_witness :
    (inpC3.payments_per_year ≠ 0 ∧ inpC3.loan_type ≠ "equal_payment" ∧
     inpC3.loan_type ≠ "equal_principal" ∧ 0 < inpC3.principal ∧
     0 < inpC3.years * inpC3.payments_per_year) ∧
    ∃ L, mkLoan inpC3 = .ok L ∧ Loan.generate_schedule L = .error .typeError :=
  ⟨⟨by decide, by decide, by decide, by norm_num [inpC3], by decide⟩,
   c3_unknown_convention inpC3 (by decide) (by decide) (by decide)
     (by norm_num [inpC3]) (by decide)⟩

/-- C10: the level payment depends only on principal, rate, years and
payments-per-year; two `equal_payment` loans agreeing on those four fields get
the same `payment` whatever their prepayment plans and payoff settings are. -/
theorem c10_payment_plan_independence (t1 t2 : LoanInput)
    (h1 : t1.principal = t2.principal) (h2 : t1.annual_rate = t2.annual_rate)
    (h3 : t1.years = t2.years) (h4 : t1.payments_per_year = t2.payments_per_year)
    (h5 : t1.loan_type = "equal_payment") (h6 : t2.loan_type = "equal_payment") :
    (mkLoan t1).map Loan.payment = (mkLoan t2).map Loan.payment := by
  unfold mkLoan
  rw [h1, h2, h3, h4, h5, h6]
  by_cases hppy : t2.payments_per_year = 0
  · rw [if_pos hppy, if_pos hppy]
  · rw [if_neg hppy, if_neg hppy]
    dsimp only
    rw [if_pos rfl, if_pos rfl]
    cases hc : calcEqualPayment t2.principal (t2.annual_rate / (t2.payments_per_year : ℚ))
        (t2.years * t2.payments_per_year) with
    | error e => simp [Except.map]
    | ok A => simp [Except.map]

/-- Witness for C10: two loans with the same terms but very different plans. -/
theorem c10_payment_plan_independence_witness :
    (inpC10a.principal = inpC10b.principal ∧ inpC10a.annual_rate = inpC10b.annual_rate ∧
     inpC10a.years = inpC10b.years ∧ inpC10a.payments_per_year = inpC10b.payments_per_year ∧
     inpC10a.loan_type = "equal_payment" ∧ inpC10b.loan_type = "equal_payment") ∧
    (mkLoan inpC10a).map Loan.payment = (mkLoan inpC10b).map Loan.payment :=
  ⟨⟨rfl, rfl, rfl, rfl, rfl, rfl⟩,
   c10_payment_plan_independence inpC10a inpC10b rfl rfl rfl rfl rfl rfl⟩
theorem genAux_cons_inv {L : Loan} {eqp : Option ℚ} {p : ℤ} {ps : List ℤ} {b : ℚ}
    {recs : List PeriodRecord} (h : genAux L eqp (p :: ps) b = .ok recs) :
    (b ≤ 0 ∧ recs = []) ∨
    (0 < b ∧ ∃ (b2 : ℚ) (entry : PeriodRecord) (a : ℚ),
      entry.period = p ∧
      entry.principal_payment = round2 a ∧
      entry.interest_payment = round2 (b * L.period_rate) ∧
      entry.total_payment = round2 (a + b * L.period_rate) ∧
      entry.remaining_balance = round2 b2 ∧
      0 ≤ b2 ∧
      (fullTrigger L.full_prepayment_at p → b2 = 0) ∧
      ((recs = [entry] ∧ b2 ≤ 0) ∨
       (∃ rest, recs = entry :: rest ∧ genAux L eqp ps b2 = .ok rest ∧ 0 < b2))) := by
  by_cases hb : b ≤ 0
  · left
    rw [genAux_nonpos L eqp _ b hb] at h
    cases h
    exact ⟨hb, rfl⟩
  · right
    refine ⟨not_le.mp hb, ?_⟩
    rw [genAux.eq_def] at h
    dsimp only at h
    rw [if_neg hb] at h
    rcases hsc : (if L.loan_type = "equal_payment"
        then some (L.payment.getD 0 - b * L.period_rate, L.payment.getD 0)
        else eqp.map (fun e => (e, e + b * L.period_rate))) with _ | ⟨pp0, tp0⟩
    · rw [hsc] at h
      cases h
    · rw [hsc] at h
      dsimp only at h
      have htp0 : tp0 = pp0 + b * L.period_rate := by
        by_cases he : L.loan_type = "equal_payment"
        · rw [if_pos he] at hsc
          cases hsc
          ring
        · rw [if_neg he] at hsc
          cases heqp : eqp with
          | none =>
            rw [heqp] at hsc
            cases hsc
          | some e =>
            rw [heqp] at hsc
            dsimp [Option.map] at hsc
            cases hsc
            rfl
      by_cases hz : fullTrigger L.full_prepayment_at p ∧
          0 < max (b - (pp0 + L.prepayment p)) 0
      · rw [if_pos hz] at h
        dsimp only at h
        rw [if_pos (le_refl (0:ℚ))] at h
        cases h
        refine ⟨0, _,
          pp0 + L.prepayment p + max (b - (pp0 + L.prepayment p)) 0,
          rfl, rfl, rfl, congrArg round2 (by rw [htp0]; ring), rfl,
          le_refl 0, fun _ => rfl, Or.inl ⟨rfl, le_refl 0⟩⟩
      · rw [if_neg hz] at h
        dsimp only at h
        by_cases hb1 : max (b - (pp0 + L.prepayment p)) 0 ≤ 0
        · rw [if_pos hb1] at h
          cases h
          refine ⟨max (b - (pp0 + L.prepayment p)) 0, _, pp0 + L.prepayment p,
            rfl, rfl, rfl, congrArg round2 (by rw [htp0]; ring), rfl,
            le_max_right _ _, ?_, Or.inl ⟨rfl, hb1⟩⟩
          intro _
          exact le_antisymm hb1 (le_max_right _ _)
        · rw [if_neg hb1] at h
          obtain ⟨rest, hrest, hcons⟩ := exceptMap_eq_ok h
          refine ⟨max (b - (pp0 + L.prepayment p)) 0, _, pp0 + L.prepayment p,
            rfl, rfl, rfl, congrArg round2 (by rw [htp0]; ring), rfl,
            le_max_right _ _, ?_, Or.inr ⟨rest, hcons.symm, hrest, not_le.mp hb1⟩⟩
          intro htrig
          exact absurd ⟨htrig, not_le.mp hb1⟩ hz
theorem genAux_records (L : Loan) (eqp : Option ℚ) :
    ∀ (ps : List ℤ) (b : ℚ) (recs : List PeriodRecord),
      genAux L eqp ps b = .ok recs → ∀ r ∈ recs,
        r.period ∈ ps ∧ 0 ≤ r.remaining_balance ∧
        ∃ a bb, r.principal_payment = round2 a ∧
          r.interest_payment = round2 (bb * L.period_rate) ∧
          r.total_payment = round2 (a + bb * L.period_rate) := by
  intro ps
  induction ps with
  | nil =>
    intro b recs h r hr
    rw [genAux_nil] at h
    cases h
    simp at hr
  | cons p ps ih =>
    intro b recs h r hr
    rcases genAux_cons_inv h with ⟨hb, rfl⟩ |
      ⟨hb, b2, entry, a, hper, hpp, hint, htp, hbal, hb2, hfull, hrec⟩
    · simp at hr
    · have hentry : r = entry →
          r.period ∈ p :: ps ∧ 0 ≤ r.remaining_balance ∧
          ∃ a bb, r.principal_payment = round2 a ∧
            r.interest_payment = round2 (bb * L.period_rate) ∧
            r.total_payment = round2 (a + bb * L.period_rate) := by
        intro hre
        subst hre
        exact ⟨by rw [hper]; exact List.mem_cons_self p ps,
          by rw [hbal]; exact round2_nonneg b2 hb2,
          a, b, hpp, hint, htp⟩
      rcases hrec with ⟨rfl, _⟩ | ⟨rest, rfl, hrest, _⟩
      · exact hentry (List.mem_singleton.mp hr)
      · rcases List.mem_cons.mp hr with hre | hr2
        · exact hentry hre
        · obtain ⟨hmem, hnn, hex⟩ := ih b2 rest hrest r hr2
          exact ⟨List.mem_cons_of_mem p hmem, hnn, hex⟩

theorem genAux_full_stop (L : Loan) (eqp : Option ℚ) (f : ℤ)
    (hfp : L.full_prepayment_at = some f) :
    ∀ (k a : ℕ), 1 ≤ a → ∀ (b : ℚ) (recs : List PeriodRecord),
      genAux L eqp ((List.range' a k).map Int.ofNat) b = .ok recs →
      (∃ r ∈ recs, r.period = f) →
      (∀ r ∈ recs, r.period ≤ f) ∧
      ∃ lastRec, recs.getLast? = some lastRec ∧ lastRec.period = f ∧
        lastRec.remaining_balance = 0 := by
  intro k
  induction k with
  | zero =>
    intro a ha b recs h hex
    rw [show (List.range' a 0).map Int.ofNat = ([] : List ℤ) from rfl, genAux_nil] at h
    cases h
    obtain ⟨r, hr, _⟩ := hex
    simp at hr
  | succ k ih =>
    intro a ha b recs h hex
    rw [show (List.range' a (k+1)).map Int.ofNat =
        ((a : ℕ) : ℤ) :: ((List.range' (a+1) k).map Int.ofNat) from rfl] at h
    rcases genAux_cons_inv h with ⟨hb, rfl⟩ |
      ⟨hb, b2, entry, aa, hper, hpp, hint, htp, hbal, hb2nn, hfull, hrec⟩
    · obtain ⟨r, hr, _⟩ := hex
      simp at hr
    · by_cases hpf : ((a : ℕ) : ℤ) = f
      · have htrig : fullTrigger L.full_prepayment_at ((a : ℕ) : ℤ) := by
          refine ⟨by rw [hfp, hpf], ?_⟩
          intro h0
          omega
        have hb20 : b2 = 0 := hfull htrig
        rcases hrec with ⟨rfl, _⟩ | ⟨rest, rfl, hrest, hb2pos⟩
        · refine ⟨?_, entry, rfl, by rw [hper, hpf], by rw [hbal, hb20, round2_zero]⟩
          intro r hr
          rw [List.mem_singleton.mp hr, hper, hpf]
        · rw [hb20] at hb2pos
          exact absurd hb2pos (lt_irrefl 0)
      · rcases hrec with ⟨rfl, hb2le⟩ | ⟨rest, rfl, hrest, hb2pos⟩
        · obtain ⟨r, hr, hrf⟩ := hex
          rw [List.mem_singleton.mp hr, hper] at hrf
          exact absurd hrf hpf
        · obtain ⟨r, hr, hrf⟩ := hex
          have hrtail : r ∈ rest := by
            rcases List.mem_cons.mp hr with rfl | h2
            · rw [hper] at hrf
              exact absurd hrf hpf
            · exact h2
          obtain ⟨hall, lastRec, hlast, hlper, hlbal⟩ :=
            ih (a+1) (by omega) b2 rest hrest ⟨r, hrtail, hrf⟩
          refine ⟨?_, lastRec, ?_, hlper, hlbal⟩
          · intro r2 hr2
            rcases List.mem_cons.mp hr2 with rfl | h2
            · have hmem := (genAux_records L eqp _ b2 rest hrest r hrtail).1
              rw [hrf] at hmem
              obtain ⟨m, hm1, hm2⟩ := List.mem_map.mp hmem
              have hm3 := List.mem_range'_1.mp hm1
              have hm4 : (m : ℤ) = f := hm2
              rw [hper]
              omega
            · exact hall r2 h2
          · rw [getLast?_cons_ne entry rest ?_]
            · exact hlast
            · intro hnil
              rw [hnil] at hrtail
              simp at hrtail

/-- C6: when a full-payoff period `f` is configured and the generated schedule
still reaches period `f` (the loan is outstanding there), the schedule
terminates at `f`: no record has a later period, and the final record has
period `f` and remaining balance 0. -/
theorem c6_payoff_terminates (L : Loan) (f : ℤ) (recs : List PeriodRecord)
    (r : PeriodRecord) (hfp : L.full_prepayment_at = some f)
    (hgen : Loan.generate_schedule L = .ok recs) (hr : r ∈ recs) (hrf : r.period = f) :
    (∀ r2 ∈ recs, r2.period ≤ f) ∧
    ∃ lastRec, recs.getLast? = some lastRec ∧ lastRec.period = f ∧
      lastRec.remaining_balance = 0 := by
  obtain ⟨hguard, hg⟩ := generate_schedule_ok_elim hgen
  rw [periodRange] at hg
  exact genAux_full_stop L _ f hfp L.total_periods.toNat 1 le_rfl L.principal recs hg
    ⟨r, hr, hrf⟩

/-- Evaluation of the schedule of `loanC6` (full payoff at period 2 of 4). -/
theorem loanC6_schedule_eval : Loan.generate_schedule loanC6 =
    .ok [⟨1, 25, 0, 25, 75⟩, ⟨2, 75, 0, 75, 0⟩] := by
  have h1 : periodRange (4:ℤ) = [1, 2, 3, 4] := rfl
  simp only [Loan.generate_schedule, loanC6]
  norm_num [String.reduceEq]
  rw [h1]
  rw [genAux_cons_pr _ _ _ _ _ (by simp) (by norm_num)]
  simp [fullTrigger, round2, round_eq]
  norm_num
  rw [genAux_cons_pr _ _ _ _ _ (by simp) (by norm_num)]
  simp [fullTrigger, round2, round_eq, Except.map]
  norm_num

/-- Witness for C6 at `loanC6`: the schedule stops at the payoff period 2 with
balance 0 although the natural term is 4 periods. -/
theorem c6_payoff_terminates_witness :
    (loanC6.full_prepayment_at = some 2 ∧
     Loan.generate_schedule loanC6 = .ok [⟨1, 25, 0, 25, 75⟩, ⟨2, 75, 0, 75, 0⟩] ∧
     (⟨2, 75, 0, 75, 0⟩ : PeriodRecord) ∈
       [(⟨1, 25, 0, 25, 75⟩ : PeriodRecord), ⟨2, 75, 0, 75, 0⟩] ∧
     (⟨2, 75, 0, 75, 0⟩ : PeriodRecord).period = 2) ∧
    ((∀ r2 ∈ [(⟨1, 25, 0, 25, 75⟩ : PeriodRecord), ⟨2, 75, 0, 75, 0⟩], r2.period ≤ 2) ∧
     ∃ lastRec,
       [(⟨1, 25, 0, 25, 75⟩ : PeriodRecord), ⟨2, 75, 0, 75, 0⟩].getLast? = some lastRec ∧
       lastRec.period = 2 ∧ lastRec.remaining_balance = 0) :=
  ⟨⟨rfl, loanC6_schedule_eval, by simp, rfl⟩,
   c6_payoff_terminates loanC6 2 [⟨1, 25, 0, 25, 75⟩, ⟨2, 75, 0, 75, 0⟩]
     ⟨2, 75, 0, 75, 0⟩ rfl loanC6_schedule_eval (by simp) rfl⟩

/-- C9: in every row of every generated schedule, the rounded interest plus
the rounded principal component equals the rounded total payment up to 0.01
(the unrounded identity `total = principal + interest` holds exactly in every
branch, and three roundings differ from it by at most one cent). -/
theorem c9_components_sum (L : Loan) (recs : List PeriodRecord) (r : PeriodRecord)
    (hgen : Loan.generate_schedule L = .ok recs) (hr : r ∈ recs) :
    |r.interest_payment + r.principal_payment - r.total_payment| ≤ 1 / 100 := by
  obtain ⟨hguard, hg⟩ := generate_schedule_ok_elim hgen
  obtain ⟨_, _, a, bb, hpp, hint, htp⟩ := genAux_records L _ _ _ recs hg r hr
  rw [hpp, hint, htp]
  exact round2_sum_close a (bb * L.period_rate)

/-- Evaluation of the schedule of `loanC7`. -/
theorem loanC7_schedule_eval : Loan.generate_schedule loanC7 =
    .ok [⟨1, 0, 1/100, 1/100, 1/100⟩, ⟨2, 101/100, 1/100, 101/100, 0⟩] := by
  have h1 : periodRange (2:ℤ) = [1, 2] := rfl
  simp only [Loan.generate_schedule, loanC7]
  norm_num [String.reduceEq]
  rw [h1]
  rw [genAux_cons_ep _ _ (4/375) _ _ _ rfl rfl (by norm_num)]
  simp [fullTrigger, round2, round_eq]
  norm_num
  rw [genAux_cons_ep _ _ (4/375) _ _ _ rfl rfl (by norm_num)]
  simp [fullTrigger, round2, round_eq, Except.map]
  norm_num

/-- Witness for C9 at the first row of `loanC7`'s schedule: this row's
components 0.01 + 0.00 against total 0.01 are within the tolerance. -/
theorem c9_components_sum_witness :
    (Loan.generate_schedule loanC7 =
       .ok [⟨1, 0, 1/100, 1/100, 1/100⟩, ⟨2, 101/100, 1/100, 101/100, 0⟩] ∧
     (⟨1, 0, 1/100, 1/100, 1/100⟩ : PeriodRecord) ∈
       [(⟨1, 0, 1/100, 1/100, 1/100⟩ : PeriodRecord), ⟨2, 101/100, 1/100, 101/100, 0⟩]) ∧
    |(⟨1, 0, 1/100, 1/100, 1/100⟩ : PeriodRecord).interest_payment +
       (⟨1, 0, 1/100, 1/100, 1/100⟩ : PeriodRecord).principal_payment -
       (⟨1, 0, 1/100, 1/100, 1/100⟩ : PeriodRecord).total_payment| ≤ 1 / 100 :=
  ⟨⟨loanC7_schedule_eval, by simp⟩,
   c9_components_sum loanC7
     [⟨1, 0, 1/100, 1/100, 1/100⟩, ⟨2, 101/100, 1/100, 101/100, 0⟩]
     ⟨1, 0, 1/100, 1/100, 1/100⟩ loanC7_schedule_eval (by simp)⟩
theorem rawAux_genAux (L : Loan) (eqp : Option ℚ) :
    ∀ (ps : List ℤ) (b : ℚ),
      genAux L eqp ps b = (rawAux L eqp ps b).map (List.map roundRec) := by
  intro ps
  induction ps with
  | nil => intro b; rfl
  | cons p ps ih =>
    intro b
    rw [genAux.eq_def, rawAux.eq_def]
    dsimp only
    by_cases hb : b ≤ 0
    · rw [if_pos hb, if_pos hb]
      rfl
    · rw [if_neg hb, if_neg hb]
      cases hsc : (if L.loan_type = "equal_payment"
          then some (L.payment.getD 0 - b * L.period_rate, L.payment.getD 0)
          else eqp.map (fun e => (e, e + b * L.period_rate))) with
      | none => rfl
      | some pt =>
        obtain ⟨pp0, tp0⟩ := pt
        dsimp only
        set z := (if fullTrigger L.full_prepayment_at p ∧
            0 < max (b - (pp0 + L.prepayment p)) 0
            then (pp0 + L.prepayment p + max (b - (pp0 + L.prepayment p)) 0,
                  tp0 + L.prepayment p + max (b - (pp0 + L.prepayment p)) 0, (0:ℚ))
            else (pp0 + L.prepayment p, tp0 + L.prepayment p,
                  max (b - (pp0 + L.prepayment p)) 0)) with hzdef
        by_cases hcc : z.2.2 ≤ 0
        · rw [if_pos hcc, if_pos hcc]
          rfl
        · rw [if_neg hcc, if_neg hcc, ih]
          cases hra : rawAux L eqp ps z.2.2 with
          | error e => rfl
          | ok rest => rfl

/-- C8: the engine carries the unrounded balance forward across periods and
rounds only the reported fields: the produced schedule equals the trace of the
unrounded recurrence with each row's monetary fields rounded at reporting
time (so the balance subtracted in period t+1 is the exact, not the rounded,
balance of period t); and the baseline calculator accumulates unrounded
per-period interest over the natural term and rounds the sum once at the
end. -/
theorem c8_unrounded_carry (L : Loan) :
    Loan.generate_schedule L = (Loan.raw_schedule L).map (List.map roundRec) ∧
    Loan.calculate_original_interest L = (Loan.raw_original_interest L).map round2 := by
  constructor
  · unfold Loan.generate_schedule Loan.raw_schedule
    by_cases hguard : L.loan_type = "equal_principal" ∧ L.total_periods = 0
    · rw [if_pos hguard, if_pos hguard]
      rfl
    · rw [if_neg hguard, if_neg hguard]
      exact rawAux_genAux L _ _ _
  · unfold Loan.calculate_original_interest Loan.raw_original_interest
    by_cases hlt : L.loan_type = "equal_payment"
    · rw [if_pos hlt, if_pos hlt]
      cases hc : calcEqualPayment L.principal L.period_rate L.total_periods with
      | error e => rfl
      | ok A => rfl
    · rw [if_neg hlt, if_neg hlt]
      by_cases hN : L.total_periods = 0
      · rw [if_pos hN, if_pos hN]
        rfl
      · rw [if_neg hN, if_neg hN]
        rfl
theorem mono_run (L : Loan) (eqp : Option ℚ) (pp0f : ℚ → ℚ) (P0 : ℚ)
    (hs : StepShape L eqp pp0f)
    (hpre : ∀ p, 0 ≤ L.prepayment p)
    (hpp0 : ∀ b, 0 < b → b ≤ P0 → 0 ≤ pp0f b) :
    ∀ (ps : List ℤ) (b : ℚ), 0 < b → b ≤ P0 →
      ∀ recs, genAux L eqp ps b = .ok recs →
        (∀ r ∈ recs, r.remaining_balance ≤ round2 b) ∧
        List.Chain' (fun x y => y.remaining_balance ≤ x.remaining_balance) recs := by
  intro ps
  induction ps with
  | nil =>
    intro b hb hbP recs h
    rw [genAux_nil] at h
    cases h
    exact ⟨by simp, List.chain'_nil⟩
  | cons p ps ih =>
    intro b hb hbP recs h
    obtain ⟨b2, entry, heq, hper, hint, hbal, hb2nn, hb2le, _⟩ := hs p ps b hb
    rw [heq] at h
    have hb2b : b2 ≤ b := by
      refine le_trans hb2le ?_
      have h1 : b - (pp0f b + L.prepayment p) ≤ b := by
        have h2 := hpre p
        have h3 := hpp0 b hb hbP
        linarith
      exact max_le h1 hb.le
    have hentrybal : entry.remaining_balance ≤ round2 b := by
      rw [hbal]
      exact round2_mono hb2b
    by_cases hc : b2 ≤ 0
    · rw [if_pos hc] at h
      cases h
      refine ⟨?_, List.chain'_singleton _⟩
      intro r hr
      rw [List.mem_singleton.mp hr]
      exact hentrybal
    · rw [if_neg hc] at h
      obtain ⟨rest, hrest, hcons⟩ := exceptMap_eq_ok h
      obtain ⟨hbelow, hchain⟩ := ih b2 (not_le.mp hc) (le_trans hb2b hbP) rest hrest
      cases hcons
      refine ⟨?_, ?_⟩
      · intro r hr
        rcases List.mem_cons.mp hr with rfl | h2
        · exact hentrybal
        · exact le_trans (hbelow r h2) (round2_mono hb2b)
      · rw [List.chain'_cons']
        refine ⟨?_, hchain⟩
        intro y hy
        have hymem : y ∈ rest := List.mem_of_mem_head? hy
        rw [hbal]
        exact hbelow y hymem
theorem periodRange_nonpos {N : ℤ} (h : N ≤ 0) : periodRange N = [] := by
  rw [periodRange, show N.toNat = 0 by omega]
  rfl

theorem calcEqualPayment_gt_rate_mul {P i : ℚ} {N : ℤ} {A : ℚ}
    (hA : calcEqualPayment P i N = .ok A) (hP : 0 < P) (hi : 0 ≤ i) (hN : 1 ≤ N) :
    0 < i ∧ i * P < A := by
  obtain ⟨hg1, hD, hAval⟩ := calcEqualPayment_ok hA
  have h1 : N = (N.toNat : ℤ) := (Int.toNat_of_nonneg (by omega)).symm
  rw [h1, zpow_natCast] at hD hAval
  set n := N.toNat with hn
  have hn1 : 1 ≤ n := by omega
  have hi0 : i ≠ 0 := fun h0 => hD (by rw [h0]; simp)
  have hipos : 0 < i := lt_of_le_of_ne hi (Ne.symm hi0)
  have hone : 1 < 1 + i := by linarith
  have hDpos : 0 < (1 + i) ^ n - 1 := sub_pos.mpr (one_lt_pow₀ hone (by omega))
  refine ⟨hipos, ?_⟩
  rw [hAval, lt_div_iff₀ hDpos]
  nlinarith [mul_pos hipos hP]

/-- C5 amended: every recorded remaining balance is nonnegative (the clamp to
zero makes this unconditional), and the recorded balances are non-increasing
across consecutive rows provided the loan's periodic rate is nonnegative and
every prepayment amount in the plan is nonnegative. -/
theorem c5_balances (inp : LoanInput) (L : Loan) (recs : List PeriodRecord)
    (hmk : mkLoan inp = .ok L) (hgen : Loan.generate_schedule L = .ok recs) :
    (∀ r ∈ recs, 0 ≤ r.remaining_balance) ∧
    (0 ≤ L.period_rate → (∀ p, 0 ≤ L.prepayment p) →
      List.Chain' (fun x y => y.remaining_balance ≤ x.remaining_balance) recs) := by
  obtain ⟨hguard, hg⟩ := generate_schedule_ok_elim hgen
  constructor
  · intro r hr
    exact (genAux_records L _ _ _ recs hg r hr).2.1
  · intro hi hpre
    by_cases hP : 0 < L.principal
    case neg =>
      rw [genAux_nonpos L _ _ _ (not_lt.mp hP)] at hg
      cases hg
      exact List.chain'_nil
    case pos =>
    by_cases hN : 1 ≤ L.total_periods
    case neg =>
      rw [periodRange_nonpos (by omega), genAux_nil] at hg
      cases hg
      exact List.chain'_nil
    case pos =>
    by_cases hlt : inp.loan_type = "equal_payment"
    · -- level payment
      obtain ⟨hppy0, A, hA, hL⟩ := mkLoan_ok_ep hlt hmk
      have hLtype : L.loan_type = "equal_payment" := by rw [hL]; exact hlt
      have hLpay : L.payment = some A := by rw [hL]
      have hLrate : L.period_rate = inp.annual_rate / (inp.payments_per_year : ℚ) := by
        rw [hL]
      have hLN : L.total_periods = inp.years * inp.payments_per_year := by rw [hL]
      have hLP : L.principal = inp.principal := by rw [hL]
      have hnp : ¬ L.loan_type = "equal_principal" := by
        rw [hLtype]
        decide
      rw [if_neg hnp] at hg
      have hA2 : calcEqualPayment L.principal L.period_rate L.total_periods = .ok A := by
        rw [hLrate, hLN, hLP]
        exact hA
      obtain ⟨hipos, hiPA⟩ := calcEqualPayment_gt_rate_mul hA2 hP hi hN
      refine (mono_run L none (fun b => A - b * L.period_rate) L.principal
        (stepShape_ep L none A hLtype hLpay) hpre ?_
        (periodRange L.total_periods) L.principal hP le_rfl recs hg).2
      intro b hb hbP
      show 0 ≤ A - b * L.period_rate
      have h2 : L.period_rate * b ≤ L.period_rate * L.principal :=
        mul_le_mul_of_nonneg_left hbP hi
      have h3 : b * L.period_rate = L.period_rate * b := mul_comm _ _
      linarith
    · -- not level payment
      obtain ⟨hppy0, hL⟩ := mkLoan_ok_pr hlt hmk
      have hLtype : L.loan_type = inp.loan_type := by rw [hL]
      by_cases hpr : inp.loan_type = "equal_principal"
      · have hLpr : L.loan_type = "equal_principal" := by rw [hLtype]; exact hpr
        rw [if_pos hLpr] at hg
        have hcpos : 0 ≤ L.principal / (L.total_periods : ℚ) := by
          apply div_nonneg hP.le
          have : (0:ℤ) ≤ L.total_periods := by omega
          exact_mod_cast this
        refine (mono_run L (some (L.principal / (L.total_periods : ℚ)))
          (fun _ => L.principal / (L.total_periods : ℚ)) L.principal
          (stepShape_pr L _ (by rw [hLpr]; decide)) hpre
          (fun b hb hbP => hcpos)
          (periodRange L.total_periods) L.principal hP le_rfl recs hg).2
      · -- unrecognized convention: the loop errors at the first period
        have hLnp : ¬ L.loan_type = "equal_principal" := by
          rw [hLtype]
          exact hpr
        have hLne : ¬ L.loan_type = "equal_payment" := by
          rw [hLtype]
          exact hlt
        rw [if_neg hLnp] at hg
        obtain ⟨m, hm⟩ : ∃ m, L.total_periods.toNat = m + 1 :=
          ⟨L.total_periods.toNat - 1, by omega⟩
        rw [show periodRange L.total_periods =
            (1 : ℤ) :: ((List.range' 2 m).map Int.ofNat) by
          rw [periodRange, hm]; rfl] at hg
        rw [genAux_cons_other L _ _ _ hLne (not_le.mpr hP)] at hg
        cases hg

/-- Evaluation: `inpC5` constructs without error. -/
theorem mkLoan_inpC5_eval : mkLoan inpC5 = .ok loanC5 := by
  simp only [mkLoan, inpC5, loanC5]
  rw [if_neg (by decide), if_neg (by decide)]
  norm_num

/-- Evaluation of the schedule of `loanC5` (negative prepayment at period 2). -/
theorem loanC5_schedule_eval : Loan.generate_schedule loanC5 =
    .ok [⟨1, 50, 0, 50, 50⟩, ⟨2, -950, 0, -950, 1000⟩] := by
  have h1 : periodRange (2:ℤ) = [1, 2] := rfl
  simp only [Loan.generate_schedule, loanC5]
  norm_num [String.reduceEq]
  rw [h1]
  rw [genAux_cons_pr _ _ _ _ _ (by simp) (by norm_num)]
  simp [fullTrigger, round2, round_eq]
  norm_num
  rw [genAux_cons_pr _ _ _ _ _ (by simp) (by norm_num)]
  simp [fullTrigger, round2, round_eq, Except.map, genAux_nil]
  norm_num [round2, round_eq]

/-- C5 counterexample: on the loan built from `inpC5` (valid terms, but a
prepayment amount of -1000 entered at period 2) the generated schedule's
recorded balances go 50 then 1000: the remaining balance increases between
consecutive rows, so the non-increasing claim fails for arbitrary plans. -/
theorem c5_counterexample :
    mkLoan inpC5 = .ok loanC5 ∧
    Loan.generate_schedule loanC5 =
      .ok [⟨1, 50, 0, 50, 50⟩, ⟨2, -950, 0, -950, 1000⟩] ∧
    ¬ List.Chain' (fun x y => y.remaining_balance ≤ x.remaining_balance)
        [(⟨1, 50, 0, 50, 50⟩ : PeriodRecord), ⟨2, -950, 0, -950, 1000⟩] := by
  refine ⟨mkLoan_inpC5_eval, loanC5_schedule_eval, ?_⟩
  intro hch
  have h1 := (List.chain'_cons.mp hch).1
  norm_num at h1

/-- Witness for the amended C5 at `inpC2`/`loanC2` (nonnegative rate and
prepayments): balances are nonnegative and non-increasing. -/
theorem c5_balances_witness :
    (mkLoan inpC2 = .ok loanC2 ∧
     Loan.generate_schedule loanC2 = .ok [⟨1, 600, 0, 600, 600⟩, ⟨2, 600, 0, 600, 0⟩]) ∧
    ((∀ r ∈ [(⟨1, 600, 0, 600, 600⟩ : PeriodRecord), ⟨2, 600, 0, 600, 0⟩],
        0 ≤ r.remaining_balance) ∧
     (0 ≤ loanC2.period_rate → (∀ p, 0 ≤ loanC2.prepayment p) →
       List.Chain' (fun x y => y.remaining_balance ≤ x.remaining_balance)
         [(⟨1, 600, 0, 600, 600⟩ : PeriodRecord), ⟨2, 600, 0, 600, 0⟩])) :=
  ⟨⟨mkLoan_inpC2_eval, loanC2_schedule_eval⟩,
   c5_balances inpC2 loanC2 _ mkLoan_inpC2_eval loanC2_schedule_eval⟩
theorem interestSaved_eq_max (origin total : ℚ) :
    interestSaved origin total = max 0 (origin - total) := by
  unfold interestSaved
  by_cases h : total < origin
  · rw [if_pos h, max_eq_right (by linarith)]
  · rw [if_neg h, max_eq_left (by push_neg at h; linarith)]

theorem origAuxEp_sum (i A : ℚ) :
    ∀ (n : ℕ) (b acc : ℚ), origAuxEp i A n b acc =
      acc + ∑ j ∈ Finset.range n, (epIterStep i A)^[j] b * i := by
  intro n
  induction n with
  | zero =>
    intro b acc
    simp [origAuxEp]
  | succ n ihn =>
    intro b acc
    rw [origAuxEp, ihn, Finset.sum_range_succ']
    have hshift : ∀ j, (epIterStep i A)^[j] (b - (A - b * i)) =
        (epIterStep i A)^[j+1] b := by
      intro j
      rw [Function.iterate_succ_apply]
      rfl
    simp only [hshift, Function.iterate_zero_apply]
    ring

theorem origAuxPr_sum (i c : ℚ) :
    ∀ (n : ℕ) (b acc : ℚ), origAuxPr i c n b acc =
      acc + ∑ j ∈ Finset.range n, (prIterStep c)^[j] b * i := by
  intro n
  induction n with
  | zero =>
    intro b acc
    simp [origAuxPr]
  | succ n ihn =>
    intro b acc
    rw [origAuxPr, ihn, Finset.sum_range_succ']
    have hshift : ∀ j, (prIterStep c)^[j] (b - c) = (prIterStep c)^[j+1] b := by
      intro j
      rw [Function.iterate_succ_apply]
      rfl
    simp only [hshift, Function.iterate_zero_apply]
    ring

theorem couple_run (L : Loan) (eqp : Option ℚ) (pp0f st : ℚ → ℚ)
    (hst : ∀ b, st b = b - pp0f b)
    (hs : StepShape L eqp pp0f)
    (hpre : ∀ p, 0 ≤ L.prepayment p)
    (hi : 0 ≤ L.period_rate)
    (hmono : ∀ b c, b ≤ c → b - pp0f b ≤ c - pp0f c) :
    ∀ (ps : List ℤ) (b β : ℚ), b ≤ β →
      (∀ j, j ≤ ps.length → 0 ≤ st^[j] β) →
      ∀ recs, genAux L eqp ps b = .ok recs →
        total_interest_of recs ≤
          (∑ j ∈ Finset.range ps.length, st^[j] β * L.period_rate) +
            (ps.length : ℚ) / 200 := by
  intro ps
  induction ps with
  | nil =>
    intro b β hbβ hnn recs h
    rw [genAux_nil] at h
    cases h
    simp [total_interest_of]
  | cons p ps ih =>
    intro b β hbβ hnn recs h
    by_cases hb : b ≤ 0
    · rw [genAux_nonpos L eqp _ b hb] at h
      cases h
      have hsum : 0 ≤ ∑ j ∈ Finset.range (p :: ps).length, st^[j] β * L.period_rate := by
        apply Finset.sum_nonneg
        intro j hj
        exact mul_nonneg (hnn j (Finset.mem_range.mp hj).le) hi
      have hlen : (0:ℚ) ≤ ((p :: ps).length : ℚ) / 200 := by positivity
      rw [show total_interest_of [] = 0 by simp [total_interest_of]]
      linarith
    · obtain ⟨b2, entry, heq, hper, hint, hbal, hb2nn, hb2le, _⟩ := hs p ps b (not_le.mp hb)
      rw [heq] at h
      have hintb : entry.interest_payment ≤ β * L.period_rate + 1 / 200 := by
        rw [hint]
        have h1 := round2_le_add (b * L.period_rate)
        have h2 := mul_le_mul_of_nonneg_right hbβ hi
        linarith
      have hb2β : b2 ≤ st β := by
        refine le_trans hb2le ?_
        have h2 := hpre p
        have h3 := hmono b β hbβ
        have h4 : b - (pp0f b + L.prepayment p) ≤ st β := by
          rw [hst]
          linarith
        refine max_le h4 ?_
        have h5 := hnn 1 (by simp)
        rwa [Function.iterate_one] at h5
      have hdecomp : ∑ j ∈ Finset.range (ps.length + 1), st^[j] β * L.period_rate =
          (∑ j ∈ Finset.range ps.length, st^[j] (st β) * L.period_rate) +
            β * L.period_rate := by
        rw [Finset.sum_range_succ']
        simp only [Function.iterate_succ_apply, Function.iterate_zero_apply]
      by_cases hc : b2 ≤ 0
      · rw [if_pos hc] at h
        cases h
        rw [show total_interest_of [entry] = entry.interest_payment by
          simp [total_interest_of]]
        have htail : 0 ≤ ∑ j ∈ Finset.range ps.length, st^[j] (st β) * L.period_rate := by
          apply Finset.sum_nonneg
          intro j hj
          refine mul_nonneg ?_ hi
          rw [← Function.iterate_succ_apply]
          exact hnn (j + 1) (Nat.succ_le_succ (Finset.mem_range.mp hj).le)
        rw [show (p :: ps).length = ps.length + 1 from rfl, hdecomp]
        push_cast
        linarith [show (0:ℚ) ≤ (ps.length : ℚ) / 200 by positivity]
      · rw [if_neg hc] at h
        obtain ⟨rest, hrest, hcons⟩ := exceptMap_eq_ok h
        cases hcons
        have hihtail := ih b2 (st β) hb2β
          (fun j hj => by
            rw [← Function.iterate_succ_apply]
            exact hnn (j + 1) (Nat.succ_le_succ hj))
          rest hrest
        rw [show total_interest_of (entry :: rest) =
            entry.interest_payment + total_interest_of rest by simp [total_interest_of]]
        rw [show (p :: ps).length = ps.length + 1 from rfl, hdecomp]
        push_cast
        push_cast at hihtail
        linarith
/-- C7 amended: for valid terms (positive principal, nonnegative rate,
positive years and payments-per-year, a recognized convention) and a plan
whose prepayment amounts are all nonnegative, the schedule's reported total
interest can exceed the reported baseline interest only by rounding slack:
`totalInterest ≤ baselineInterest + (N+1)·0.005` where `N` is the natural
period count; and the reported saving is exactly
`max 0 (baseline − total)`. -/
theorem c7_interest_bound (inp : LoanInput) (L : Loan) (recs : List PeriodRecord)
    (base : ℚ)
    (hP : 0 < inp.principal) (hr : 0 ≤ inp.annual_rate)
    (hy : 0 < inp.years) (hppy : 0 < inp.payments_per_year)
    (hlt : inp.loan_type = "equal_payment" ∨ inp.loan_type = "equal_principal")
    (hpre : ∀ p, 0 ≤ inp.prepayment p)
    (hmk : mkLoan inp = .ok L)
    (hgen : Loan.generate_schedule L = .ok recs)
    (hbase : Loan.calculate_original_interest L = .ok base) :
    total_interest_of recs ≤
      base + (((inp.years * inp.payments_per_year : ℤ) : ℚ) + 1) / 200 ∧
    interestSaved base (total_interest_of recs) =
      max 0 (base - total_interest_of recs) := by
  refine ⟨?_, interestSaved_eq_max base (total_interest_of recs)⟩
  have hN : 0 < inp.years * inp.payments_per_year := mul_pos hy hppy
  have hNcast : ((inp.years * inp.payments_per_year).toNat : ℤ) =
      inp.years * inp.payments_per_year := Int.toNat_of_nonneg hN.le
  set n := (inp.years * inp.payments_per_year).toNat with hn
  have hn1 : 1 ≤ n := by omega
  have hNq : ((inp.years * inp.payments_per_year : ℤ) : ℚ) = (n : ℚ) := by
    rw [← hNcast]
    norm_cast
  obtain ⟨hguard, hg⟩ := generate_schedule_ok_elim hgen
  rcases hlt with hep | hpr
  · -- equal_payment
    obtain ⟨hppy0, A, hA, hL⟩ := mkLoan_ok_ep hep hmk
    have hLtype : L.loan_type = "equal_payment" := by rw [hL]; exact hep
    have hLpay : L.payment = some A := by rw [hL]
    have hLrate : L.period_rate = inp.annual_rate / (inp.payments_per_year : ℚ) := by
      rw [hL]
    have hLN : L.total_periods = inp.years * inp.payments_per_year := by rw [hL]
    have hLP : L.principal = inp.principal := by rw [hL]
    have hLpre : L.prepayment = inp.prepayment := by rw [hL]
    set i := inp.annual_rate / (inp.payments_per_year : ℚ) with hidef
    have hiNN : 0 ≤ i := by
      apply div_nonneg hr
      exact_mod_cast hppy.le
    obtain ⟨hg1, hD, hAval⟩ := calcEqualPayment_ok hA
    have hzn : (1 + i) ^ (inp.years * inp.payments_per_year) = (1 + i) ^ n := by
      rw [← hNcast, zpow_natCast]
    rw [hzn] at hD hAval
    have hi0 : i ≠ 0 := fun h0 => hD (by rw [h0]; simp)
    have hipos : 0 < i := lt_of_le_of_ne hiNN (Ne.symm hi0)
    have hone : 1 < 1 + i := by linarith
    have hDpos : 0 < (1 + i) ^ n - 1 := sub_pos.mpr (one_lt_pow₀ hone (by omega))
    have hnn : ∀ j, j ≤ n → 0 ≤ (epIterStep i A)^[j] inp.principal := by
      intro j hj
      rw [epIter_closed i A inp.principal n hD hAval j]
      have hle : (1 + i) ^ j ≤ (1 + i) ^ n := pow_le_pow_right₀ (by linarith) hj
      exact div_nonneg (mul_nonneg hP.le (by linarith)) hDpos.le
    -- extract the baseline value
    unfold Loan.calculate_original_interest at hbase
    rw [if_pos hLtype, hLrate, hLN, hLP, hA] at hbase
    have hbase2 : round2 (origAuxEp i A n inp.principal 0) = base := by
      have h2 : Except.ok (round2 (origAuxEp i A
          (inp.years * inp.payments_per_year).toNat inp.principal 0)) =
          (Except.ok base : Except PyError ℚ) := hbase
      cases h2
      rfl
    have hS : origAuxEp i A n inp.principal 0 =
        ∑ j ∈ Finset.range n, (epIterStep i A)^[j] inp.principal * i := by
      rw [origAuxEp_sum]
      ring
    -- the coupling bound
    have hnp : ¬ L.loan_type = "equal_principal" := by rw [hLtype]; decide
    rw [if_neg hnp] at hg
    have hcouple := couple_run L none (fun b => A - b * L.period_rate)
      (epIterStep i A)
      (fun b => by rw [epIterStep, hLrate])
      (stepShape_ep L none A hLtype hLpay)
      (fun p => by rw [hLpre]; exact hpre p)
      (by rw [hLrate]; exact hiNN)
      (fun b c hbc => by
        show b - (A - b * L.period_rate) ≤ c - (A - c * L.period_rate)
        have h1 : b * (1 + L.period_rate) ≤ c * (1 + L.period_rate) :=
          mul_le_mul_of_nonneg_right hbc
            (by rw [hLrate]; linarith)
        have h2 : b * (1 + L.period_rate) = b + b * L.period_rate := by ring
        have h3 : c * (1 + L.period_rate) = c + c * L.period_rate := by ring
        linarith)
      (periodRange L.total_periods) L.principal L.principal le_rfl
      (by
        intro j hj
        rw [hLP]
        apply hnn
        rw [periodRange_length, hLN] at hj
        exact hj)
      recs hg
    rw [periodRange_length, hLN] at hcouple
    rw [hLP, hLrate] at hcouple
    have hround := le_round2_add (origAuxEp i A n inp.principal 0)
    rw [hbase2, hS] at hround
    rw [hNq]
    have hfin : (((inp.years * inp.payments_per_year).toNat : ℤ) : ℚ) = (n : ℚ) := by
      rw [hNcast, hNq]
    push_cast at hcouple hfin ⊢
    linarith
  · -- equal_principal
    have hep2 : ¬ inp.loan_type = "equal_payment" := by rw [hpr]; decide
    obtain ⟨hppy0, hL⟩ := mkLoan_ok_pr hep2 hmk
    have hLtype : L.loan_type = inp.loan_type := by rw [hL]
    have hLpr : L.loan_type = "equal_principal" := by rw [hLtype]; exact hpr
    have hLne : ¬ L.loan_type = "equal_payment" := by rw [hLpr]; decide
    have hLrate : L.period_rate = inp.annual_rate / (inp.payments_per_year : ℚ) := by
      rw [hL]
    have hLN : L.total_periods = inp.years * inp.payments_per_year := by rw [hL]
    have hLP : L.principal = inp.principal := by rw [hL]
    have hLpre : L.prepayment = inp.prepayment := by rw [hL]
    set i := inp.annual_rate / (inp.payments_per_year : ℚ) with hidef
    have hiNN : 0 ≤ i := by
      apply div_nonneg hr
      exact_mod_cast hppy.le
    set c := inp.principal / ((inp.years * inp.payments_per_year : ℤ) : ℚ) with hcdef
    have hnq : (0:ℚ) < (n : ℚ) := by exact_mod_cast hn1
    have hcval : c = inp.principal / (n : ℚ) := by rw [hcdef, hNq]
    have hnn : ∀ j, j ≤ n → 0 ≤ (prIterStep c)^[j] inp.principal := by
      intro j hj
      rw [prIter_closed c inp.principal j, hcval]
      have hjn : (j : ℚ) ≤ (n : ℚ) := by exact_mod_cast hj
      have heq2 : inp.principal - (j : ℚ) * (inp.principal / (n : ℚ)) =
          inp.principal * ((n : ℚ) - (j : ℚ)) / (n : ℚ) := by
        field_simp
        ring
      rw [heq2]
      exact div_nonneg (mul_nonneg hP.le (by linarith)) hnq.le
    -- baseline value
    unfold Loan.calculate_original_interest at hbase
    rw [if_neg hLne, if_neg (by omega : ¬ L.total_periods = 0), hLrate, hLN, hLP,
      ← hcdef] at hbase
    have hbase2 : round2 (origAuxPr i c n inp.principal 0) = base := by
      have h2 : Except.ok (round2 (origAuxPr i c
          (inp.years * inp.payments_per_year).toNat inp.principal 0)) =
          (Except.ok base : Except PyError ℚ) := hbase
      cases h2
      rfl
    have hS : origAuxPr i c n inp.principal 0 =
        ∑ j ∈ Finset.range n, (prIterStep c)^[j] inp.principal * i := by
      rw [origAuxPr_sum]
      ring
    rw [if_pos hLpr] at hg
    have hcouple := couple_run L (some (L.principal / (L.total_periods : ℚ)))
      (fun _ => L.principal / (L.total_periods : ℚ)) (prIterStep (L.principal / (L.total_periods : ℚ)))
      (fun b => rfl)
      (stepShape_pr L _ hLne)
      (fun p => by rw [hLpre]; exact hpre p)
      (by rw [hLrate]; exact hiNN)
      (fun b d hbd => by
        show b - L.principal / (L.total_periods : ℚ) ≤ d - L.principal / (L.total_periods : ℚ)
        linarith)
      (periodRange L.total_periods) L.principal L.principal le_rfl
      (by
        intro j hj
        rw [hLP, hLN]
        rw [show inp.principal / ((inp.years * inp.payments_per_year : ℤ) : ℚ) = c
          from rfl]
        apply hnn
        rw [periodRange_length, hLN] at hj
        exact hj)
      recs hg
    rw [periodRange_length, hLN] at hcouple
    rw [hLP, hLrate] at hcouple
    rw [show inp.principal / ((inp.years * inp.payments_per_year : ℤ) : ℚ) = c
      from rfl] at hcouple
    have hround := le_round2_add (origAuxPr i c n inp.principal 0)
    rw [hbase2, hS] at hround
    rw [hNq]
    linarith
/-- Evaluation: `inpC7` constructs with payment `4/375`. -/
theorem mkLoan_inpC7_eval : mkLoan inpC7 = .ok loanC7 := by
  simp only [mkLoan, inpC7, loanC7, calcEqualPayment]
  norm_num [String.reduceEq, Except.map]

/-- Evaluation of the baseline interest of `loanC7`: the unrounded sum is
`1/75` which rounds to `0.01`. -/
theorem loanC7_baseline_eval :
    Loan.calculate_original_interest loanC7 = .ok (1/100) := by
  simp only [Loan.calculate_original_interest, loanC7, calcEqualPayment]
  norm_num [String.reduceEq, Except.map]
  rw [show ((2:ℤ)).toNat = 2 from rfl]
  rw [origAuxEp, origAuxEp, origAuxEp]
  norm_num [round2, round_eq]

/-- C7 counterexample: on `inpC7` (valid terms, a strictly positive prepayment
of 1 at period 2) the reported schedule total interest is 0.02 while the
reported baseline interest is 0.01: `baselineInterest ≥ totalInterest` fails
even though a prepayment is applied, because the schedule sums per-period
rounded interest while the baseline rounds once at the end. -/
theorem c7_counterexample :
    mkLoan inpC7 = .ok loanC7 ∧
    inpC7.prepayment 2 = 1 ∧
    Loan.generate_schedule loanC7 =
      .ok [⟨1, 0, 1/100, 1/100, 1/100⟩, ⟨2, 101/100, 1/100, 101/100, 0⟩] ∧
    Loan.calculate_original_interest loanC7 = .ok (1/100) ∧
    total_interest_of
      [⟨1, 0, 1/100, 1/100, 1/100⟩, ⟨2, 101/100, 1/100, 101/100, 0⟩] = 2/100 ∧
    ¬ ((1:ℚ)/100 ≥ 2/100) := by
  refine ⟨mkLoan_inpC7_eval, rfl, loanC7_schedule_eval, loanC7_baseline_eval, ?_, by norm_num⟩
  simp [total_interest_of]
  norm_num

/-- Evaluation: `inpW4` constructs with payment 200. -/
theorem mkLoan_inpW4_eval : mkLoan inpW4 = .ok loanW4 := by
  simp only [mkLoan, inpW4, loanW4, calcEqualPayment]
  norm_num [Except.map]

/-- Evaluation of the schedule of `loanW4`. -/
theorem loanW4_schedule_eval :
    Loan.generate_schedule loanW4 = .ok [⟨1, 100, 100, 200, 0⟩] := by
  have h1 : periodRange (1:ℤ) = [1] := rfl
  simp only [Loan.generate_schedule, loanW4]
  norm_num [String.reduceEq]
  rw [h1]
  rw [genAux_cons_ep _ _ 200 _ _ _ rfl rfl (by norm_num)]
  simp [fullTrigger, round2, round_eq]
  norm_num

/-- Evaluation of the baseline interest of `loanW4`. -/
theorem loanW4_baseline_eval :
    Loan.calculate_original_interest loanW4 = .ok 100 := by
  simp only [Loan.calculate_original_interest, loanW4, calcEqualPayment]
  norm_num [String.reduceEq, Except.map]
  rw [origAuxEp, origAuxEp]
  norm_num [round2, round_eq]

/-- Witness for the amended C7 at `inpW4`/`loanW4`. -/
theorem c7_interest_bound_witness :
    (0 < inpW4.principal ∧ 0 ≤ inpW4.annual_rate ∧ 0 < inpW4.years ∧
     0 < inpW4.payments_per_year ∧
     (inpW4.loan_type = "equal_payment" ∨ inpW4.loan_type = "equal_principal") ∧
     (∀ p, 0 ≤ inpW4.prepayment p) ∧
     mkLoan inpW4 = .ok loanW4 ∧
     Loan.generate_schedule loanW4 = .ok [⟨1, 100, 100, 200, 0⟩] ∧
     Loan.calculate_original_interest loanW4 = .ok 100) ∧
    (total_interest_of [⟨1, 100, 100, 200, 0⟩] ≤
       100 + (((inpW4.years * inpW4.payments_per_year : ℤ) : ℚ) + 1) / 200 ∧
     interestSaved 100 (total_interest_of [⟨1, 100, 100, 200, 0⟩]) =
       max 0 (100 - total_interest_of [⟨1, 100, 100, 200, 0⟩])) :=
  ⟨⟨by norm_num [inpW4], by norm_num [inpW4], by norm_num [inpW4], by norm_num [inpW4],
    Or.inl rfl, fun p => le_refl 0, mkLoan_inpW4_eval, loanW4_schedule_eval,
    loanW4_baseline_eval⟩,
   c7_interest_bound inpW4 loanW4 [⟨1, 100, 100, 200, 0⟩] 100
     (by norm_num [inpW4]) (by norm_num [inpW4]) (by norm_num [inpW4])
     (by norm_num [inpW4]) (Or.inl rfl) (fun p => le_refl 0)
     mkLoan_inpW4_eval loanW4_schedule_eval loanW4_baseline_eval⟩
